import Mathlib

/-!
Verification of the Cross-Platform UI Element Locator Synthesis Engine
(webdriverio-mcp). The definitions below are shallow embeddings of the
TypeScript sources `src/locators/source-parsing.ts` and
`src/utils/mobile-elements.ts`; JavaScript strings are modelled as Lean
`String`, `null`/`undefined` as `Option`, fallible driver calls as
`Except Unit`, and JS numbers as `Int`/`Nat` (an `Option Int` where NaN
can arise).
-/

namespace WebdriverMCP

/-! ## Mobile selector generation (`src/utils/mobile-elements.ts`) -/

/-- Model of JS `String.prototype.trim`: strip leading and trailing
whitespace. -/
def jsTrim (s : String) : String :=
  String.mk (((s.data.dropWhile Char.isWhitespace).reverse.dropWhile Char.isWhitespace).reverse)

/-- Embedding of `isValid` (mobile-elements.ts line 8): a string value is
valid when it is not `null`/`undefined` (`none`), not the literal string
`"null"`, and not blank after trimming. -/
def isValid (value : Option String) : Bool :=
  match value with
  | none => false
  | some s => s != "null" && jsTrim s != ""

/-- The attribute bag handed to `buildAllMobileSelectors`
(mobile-elements.ts lines 39-45), field order as in the source. -/
structure MobileAttributes where
  resourceId : Option String
  contentDesc : Option String
  accessibilityId : Option String
  text : Option String
  className : Option String
deriving DecidableEq, Repr

/-- The platform flag `'ios' | 'android'`. -/
inductive Platform where
  | ios
  | android
deriving DecidableEq, Repr

/-- One `if (isValid(v)) selectors.push(mk(v))` step of the selector
builder, as the list it contributes. -/
def pushIfValid (v : Option String) (mk : String → String) : List String :=
  match v with
  | some s => if isValid (some s) then [mk s] else []
  | none => []

/-- The text step, which additionally requires `text.length < 100`
(mobile-elements.ts lines 62 and 79). -/
def pushTextIfValid (v : Option String) (mk : String → String) : List String :=
  match v with
  | some s => if isValid (some s) && s.length < 100 then [mk s] else []
  | none => []

/-- Embedding of `buildAllMobileSelectors` (mobile-elements.ts lines
37-90): the pushes of the two platform branches, in source order. -/
def buildAllMobileSelectors (platform : Platform) (attributes : MobileAttributes) : List String :=
  match platform with
  | Platform.android =>
      pushIfValid attributes.resourceId
        (fun s => "android=new UiSelector().resourceId(\"" ++ s ++ "\")") ++
      pushIfValid attributes.contentDesc (fun s => "~" ++ s) ++
      pushTextIfValid attributes.text
        (fun s => "android=new UiSelector().text(\"" ++ s ++ "\")") ++
      pushIfValid attributes.className
        (fun s => "android=new UiSelector().className(\"" ++ s ++ "\")")
  | Platform.ios =>
      pushIfValid attributes.accessibilityId (fun s => "~" ++ s) ++
      pushTextIfValid attributes.text
        (fun s => "-ios predicate string:label == \"" ++ s ++ "\"") ++
      pushIfValid attributes.className (fun s => "-ios class chain:**/" ++ s)

/-- Spec-side reading of usability (spec section 4.4): a value is usable
only if it is present, not the literal absence token, and not blank
after trimming. -/
def usableValue : Option String → Bool
  | none => false
  | some s => !(s == "null") && !(jsTrim s == "")

/-- One priority slot of the spec-side generator: the selector built
from the attribute when its value is usable (and, when `capped`, when
the text length is below the configured ceiling of 100), else nothing. -/
def specSlot (v : Option String) (capped : Bool) (mk : String → String) : Option String :=
  match v with
  | some s =>
      if usableValue (some s) && (!capped || s.length < 100) then some (mk s) else none
  | none => none

/-- Spec-side candidate generator following claim C2's words: the
selectors of the usable attributes in the fixed platform priority
order, with the length ceiling of 100 stated for the Android visible
text slot only — Android: resource identifier, content description,
visible text (length-capped), class name; iOS: accessibility
identifier, visible text/label (no stated cap), type/class chain. -/
def buildAllMobileSelectorsSpec (platform : Platform) (a : MobileAttributes) : List String :=
  (match platform with
   | Platform.android =>
       [specSlot a.resourceId false (fun s => "android=new UiSelector().resourceId(\"" ++ s ++ "\")"),
        specSlot a.contentDesc false (fun s => "~" ++ s),
        specSlot a.text true (fun s => "android=new UiSelector().text(\"" ++ s ++ "\")"),
        specSlot a.className false (fun s => "android=new UiSelector().className(\"" ++ s ++ "\")")]
   | Platform.ios =>
       [specSlot a.accessibilityId false (fun s => "~" ++ s),
        specSlot a.text false (fun s => "-ios predicate string:label == \"" ++ s ++ "\""),
        specSlot a.className false (fun s => "-ios class chain:**/" ++ s)]).filterMap id

/-- Spec-side candidate generator for the amended C2: as
`buildAllMobileSelectorsSpec`, but with the length ceiling of 100
applied to the visible text slot on both platforms, as the code does. -/
def buildAllMobileSelectorsAmendedSpec (platform : Platform) (a : MobileAttributes) :
    List String :=
  (match platform with
   | Platform.android =>
       [specSlot a.resourceId false (fun s => "android=new UiSelector().resourceId(\"" ++ s ++ "\")"),
        specSlot a.contentDesc false (fun s => "~" ++ s),
        specSlot a.text true (fun s => "android=new UiSelector().text(\"" ++ s ++ "\")"),
        specSlot a.className false (fun s => "android=new UiSelector().className(\"" ++ s ++ "\")")]
   | Platform.ios =>
       [specSlot a.accessibilityId false (fun s => "~" ++ s),
        specSlot a.text true (fun s => "-ios predicate string:label == \"" ++ s ++ "\""),
        specSlot a.className false (fun s => "-ios class chain:**/" ++ s)]).filterMap id

/-! ## Bounds resolvers (`src/locators/source-parsing.ts` lines 138-179) -/

/-- Decimal value of a digit run. -/
def digitsToNat (ds : List Char) : Nat :=
  ds.foldl (fun acc c => 10 * acc + (c.toNat - 48)) 0

/-- A rectangle as returned by `parseAndroidBounds`; JS numbers are
integers here because every matched group is a digit run. -/
structure Rect where
  x : Int
  y : Int
  width : Int
  height : Int
deriving DecidableEq, Repr

/-- Read the maximal nonempty digit run at the head of the character
list (one `(\d+)` group); `none` when the head is not a digit. -/
def readNat (cs : List Char) : Option (Nat × List Char) :=
  let ds := cs.takeWhile Char.isDigit
  if ds.isEmpty then none else some (digitsToNat ds, cs.dropWhile Char.isDigit)

/-- Try to match the regex `\[(\d+),(\d+)\]\[(\d+),(\d+)\]` at the head
of the character list; since each `\d+` is followed by a non-digit
literal, the greedy run is the only possible match, so the regex match
at a position is this deterministic scan. -/
def matchBoundsAt (cs : List Char) : Option (Nat × Nat × Nat × Nat) :=
  match cs with
  | '[' :: r0 =>
      match readNat r0 with
      | some (x1, r1) =>
          match r1 with
          | ',' :: r2 =>
              match readNat r2 with
              | some (y1, r3) =>
                  match r3 with
                  | ']' :: '[' :: r4 =>
                      match readNat r4 with
                      | some (x2, r5) =>
                          match r5 with
                          | ',' :: r6 =>
                              match readNat r6 with
                              | some (y2, r7) =>
                                  match r7 with
                                  | ']' :: _ => some (x1, y1, x2, y2)
                                  | _ => none
                              | none => none
                          | _ => none
                      | none => none
                  | _ => none
              | none => none
          | _ => none
      | none => none
  | _ => none

/-- Unanchored regex search: the leftmost position at which the bracket
pattern matches, as performed by `bounds.match(...)`. -/
def findBoundsMatch : List Char → Option (Nat × Nat × Nat × Nat)
  | [] => none
  | c :: cs =>
      match matchBoundsAt (c :: cs) with
      | some r => some r
      | none => findBoundsMatch cs

/-- Embedding of `parseAndroidBounds` (source-parsing.ts lines 138-160):
zero rectangle when the pattern does not match anywhere, else
`{x1, y1, x2 - x1, y2 - y1}`. -/
def parseAndroidBounds (bounds : String) : Rect :=
  match findBoundsMatch bounds.data with
  | none => { x := 0, y := 0, width := 0, height := 0 }
  | some (x1, y1, x2, y2) =>
      { x := (x1 : Int), y := (y1 : Int),
        width := (x2 : Int) - (x1 : Int), height := (y2 : Int) - (y1 : Int) }

/-- Model of JS `parseInt(s, 10)`: skip leading whitespace, read an
optional sign and then the maximal leading run of decimal digits,
ignoring any trailing characters; `none` models the NaN result produced
when that digit run is empty. -/
def jsParseInt (s : String) : Option Int :=
  let cs := s.data.dropWhile Char.isWhitespace
  let signed : Int × List Char :=
    match cs with
    | c :: rest => if c = '-' then (-1, rest) else if c = '+' then (1, rest) else (1, cs)
    | [] => (1, [])
  let ds := signed.2.takeWhile Char.isDigit
  if ds.isEmpty then none else some (signed.1 * (digitsToNat ds : Int))

/-- Model of the JS expression `v || d` on an optional string: the
default is used when the value is absent or the empty string (both
falsy). -/
def jsOrDefault (v : Option String) (d : String) : String :=
  match v with
  | some s => if s == "" then d else s
  | none => d

/-- The attribute map of a normalized node (`ElementAttributes` in
source-parsing.ts): an ordered association list from attribute names to
string values. -/
def ElementAttributes : Type := List (String × String)

/-- Attribute access `attributes.name`: the first binding of the name,
if any. -/
def attrLookup (attributes : ElementAttributes) (name : String) : Option String :=
  List.lookup name attributes

/-- The rectangle returned by `parseIOSBounds`; a field is `none` when
the corresponding `parseInt` call produced NaN. -/
structure IOSRect where
  x : Option Int
  y : Option Int
  width : Option Int
  height : Option Int
deriving DecidableEq, Repr

/-- Embedding of `parseIOSBounds` (source-parsing.ts lines 167-179):
each coordinate is `parseInt(attributes.f || '0', 10)`. -/
def parseIOSBounds (attributes : ElementAttributes) : IOSRect :=
  { x := jsParseInt (jsOrDefault (attrLookup attributes "x") "0"),
    y := jsParseInt (jsOrDefault (attrLookup attributes "y") "0"),
    width := jsParseInt (jsOrDefault (attrLookup attributes "width") "0"),
    height := jsParseInt (jsOrDefault (attrLookup attributes "height") "0") }

/-! ## Scan orchestrator (`src/utils/mobile-elements.ts` lines 95-225)

Each driver round-trip is modelled by its outcome: `Except Unit α` is
`.ok` with the returned value, `.error ()` when the call rejects.
`getAttribute` can also return `null` on success, hence
`Except Unit (Option String)` for attribute fetches. -/

/-- A point as returned by `getLocation()`. -/
structure Pt where
  x : Int
  y : Int
deriving DecidableEq, Repr

/-- A size as returned by `getSize()` / `getWindowSize()`. -/
structure Sz where
  width : Int
  height : Int
deriving DecidableEq, Repr

instance exceptUnitDecEq {α : Type} [DecidableEq α] : DecidableEq (Except Unit α) :=
  fun x y =>
    match x, y with
    | Except.ok a, Except.ok b =>
        if h : a = b then isTrue (by rw [h]) else isFalse (by intro hc; cases hc; exact h rfl)
    | Except.ok _, Except.error _ => isFalse (by intro hc; cases hc)
    | Except.error _, Except.ok _ => isFalse (by intro hc; cases hc)
    | Except.error (), Except.error () => isTrue rfl

/-- The outcomes of every driver call the scan makes on one live
element, in the order of the `Promise.all` array (mobile-elements.ts
lines 147-159), preceded by the `isDisplayed()` check. -/
structure ElementFetches where
  isDisplayed : Except Unit Bool
  getTagName : Except Unit String
  getText : Except Unit String
  attrResourceId : Except Unit (Option String)
  attrContentDesc : Except Unit (Option String)
  attrName : Except Unit (Option String)
  attrLabel : Except Unit (Option String)
  attrValue : Except Unit (Option String)
  attrClass : Except Unit (Option String)
  isEnabled : Except Unit Bool
  getLocation : Except Unit Pt
  getSize : Except Unit Sz
deriving DecidableEq, Repr

/-- `.catch(() => undefined)` on a string-returning call. -/
def catchToNone (r : Except Unit String) : Option String :=
  match r with
  | Except.ok v => some v
  | Except.error _ => none

/-- `.catch(() => undefined)` on a `getAttribute` call (which may itself
have returned `null`, also an invalid value downstream). -/
def catchAttr (r : Except Unit (Option String)) : Option String :=
  match r with
  | Except.ok v => v
  | Except.error _ => none

/-- `.catch(() => true)` on `isEnabled()`. -/
def catchEnabled (r : Except Unit Bool) : Bool :=
  match r with
  | Except.ok b => b
  | Except.error _ => true

/-- `.catch(() => ({x: 0, y: 0}))` on `getLocation()`. -/
def catchLocation (r : Except Unit Pt) : Pt :=
  match r with
  | Except.ok p => p
  | Except.error _ => { x := 0, y := 0 }

/-- `.catch(() => ({width: 0, height: 0}))` on `getSize()`. -/
def catchSize (r : Except Unit Sz) : Sz :=
  match r with
  | Except.ok s => s
  | Except.error _ => { width := 0, height := 0 }

/-- `MobileElementInfo` (mobile-elements.ts lines 12-31); optional
fields are `none` when the source sets them to `undefined`. -/
structure MobileElementInfo where
  tagName : Option String
  text : Option String
  resourceId : Option String
  contentDesc : Option String
  accessibilityId : Option String
  label : Option String
  value : Option String
  className : Option String
  selector : String
  alternativeSelectors : Option (List String)
  isInViewport : Bool
  isEnabled : Bool
  bounds : Rect
deriving DecidableEq, Repr

/-- The attribute bag the scan passes to `buildAllMobileSelectors`
(mobile-elements.ts lines 169-175), after the per-fetch catches. -/
def degradedAttributes (e : ElementFetches) : MobileAttributes :=
  { resourceId := catchAttr e.attrResourceId,
    contentDesc := catchAttr e.attrContentDesc,
    accessibilityId := catchAttr e.attrName,
    text := catchToNone e.getText,
    className := catchAttr e.attrClass }

/-- Embedding of the per-element body of the batch map
(mobile-elements.ts lines 128-211): `none` models the `return null`
paths (not displayed, a throw caught by the inner try, or no usable
selector), `some` the emitted record. -/
def processMobileElement (platform : Platform) (viewportWidth viewportHeight : Int)
    (e : ElementFetches) : Option MobileElementInfo :=
  match e.isDisplayed with
  | Except.error _ => none
  | Except.ok false => none
  | Except.ok true =>
      let tagName := catchToNone e.getTagName
      let text := catchToNone e.getText
      let resourceId := catchAttr e.attrResourceId
      let contentDesc := catchAttr e.attrContentDesc
      let accessibilityId := catchAttr e.attrName
      let label := catchAttr e.attrLabel
      let value := catchAttr e.attrValue
      let className := catchAttr e.attrClass
      let isEnabled := catchEnabled e.isEnabled
      let location := catchLocation e.getLocation
      let size := catchSize e.getSize
      let isInViewport :=
        decide (0 ≤ location.x) && decide (0 ≤ location.y) &&
        decide (location.x + size.width ≤ viewportWidth) &&
        decide (location.y + size.height ≤ viewportHeight)
      let allSelectors := buildAllMobileSelectors platform (degradedAttributes e)
      match allSelectors with
      | [] => none
      | selector :: others =>
          let alternativeSelectors := others.take 1
          some
            { selector := selector,
              isInViewport := isInViewport,
              isEnabled := isEnabled,
              bounds :=
                { x := location.x, y := location.y,
                  width := size.width, height := size.height },
              alternativeSelectors :=
                if alternativeSelectors.length > 0 then some alternativeSelectors else none,
              tagName := if isValid tagName then tagName else none,
              text := if isValid text then text else none,
              resourceId :=
                if isValid resourceId && platform == Platform.android then resourceId else none,
              contentDesc :=
                if isValid contentDesc && platform == Platform.android then contentDesc else none,
              accessibilityId :=
                if isValid accessibilityId && platform == Platform.ios then accessibilityId else none,
              label := if isValid label && platform == Platform.ios then label else none,
              value := if isValid value then value else none,
              className := if isValid className then className else none }

/-- The batching loop (mobile-elements.ts lines 124-219): slices of 10
elements, each batch settled with `Promise.allSettled` and its non-null
fulfilled values appended in order. Every per-element body is total in
this model, so settling a batch keeps exactly the non-`none` results. -/
def scanBatches (platform : Platform) (viewportWidth viewportHeight : Int) :
    List ElementFetches → List MobileElementInfo
  | [] => []
  | e :: es =>
      ((e :: es).take 10).filterMap (processMobileElement platform viewportWidth viewportHeight) ++
      scanBatches platform viewportWidth viewportHeight ((e :: es).drop 10)
termination_by l => l.length
decreasing_by
  simp [List.length_drop]
  omega

/-- Embedding of `getMobileVisibleElements` (mobile-elements.ts lines
95-225): viewport size from `getWindowSize()`, defaulting to 9999 by
9999 when that call fails, then the batched scan. -/
def getMobileVisibleElements (platform : Platform) (windowSize : Except Unit Sz)
    (allElements : List ElementFetches) : List MobileElementInfo :=
  let viewportWidth : Int :=
    match windowSize with
    | Except.ok s => s.width
    | Except.error _ => 9999
  let viewportHeight : Int :=
    match windowSize with
    | Except.ok s => s.height
    | Except.error _ => 9999
  scanBatches platform viewportWidth viewportHeight allElements

/-! ## Markup normalizer (`src/locators/source-parsing.ts` lines 52-131) -/

/-- A DOM node as produced by the external XML parser: a node type code
(1 = ELEMENT_NODE), a node name, attributes, and child nodes. -/
inductive DOMNode where
  | mk (nodeType : Nat) (nodeName : String) (attributes : List (String × String))
      (childNodes : List DOMNode)

/-- The `nodeType` field. -/
def DOMNode.nodeType : DOMNode → Nat
  | DOMNode.mk t _ _ _ => t

/-- The `nodeName` field. -/
def DOMNode.nodeName : DOMNode → String
  | DOMNode.mk _ n _ _ => n

/-- The `attributes` collection. -/
def DOMNode.attributes : DOMNode → List (String × String)
  | DOMNode.mk _ _ a _ => a

/-- The `childNodes` collection. -/
def DOMNode.childNodes : DOMNode → List DOMNode
  | DOMNode.mk _ _ _ c => c

/-- Embedding of `childNodesOf` (source-parsing.ts lines 52-64): the
child nodes whose node type is ELEMENT_NODE. -/
def childNodesOf (node : DOMNode) : List DOMNode :=
  node.childNodes.filter (fun c => c.nodeType == 1)

theorem sizeOf_childNodes_lt (d : DOMNode) : sizeOf d.childNodes < sizeOf d := by
  cases d with
  | mk t n a c =>
      simp only [DOMNode.childNodes, DOMNode.mk.sizeOf_spec]
      omega

theorem mem_childNodesOf_sizeOf_lt {c d : DOMNode} (h : c ∈ childNodesOf d) :
    sizeOf c < sizeOf d := by
  have h1 : c ∈ d.childNodes := List.mem_of_mem_filter h
  have h2 : sizeOf c < sizeOf d.childNodes := List.sizeOf_lt_of_mem h1
  exact Nat.lt_trans h2 (sizeOf_childNodes_lt d)

/-- `JSONElement` (source-parsing.ts lines 42-47): the normalized node. -/
inductive JSONElement where
  | mk (children : List JSONElement) (tagName : String)
      (attributes : List (String × String)) (path : String)

/-- The `children` field. -/
def JSONElement.children : JSONElement → List JSONElement
  | JSONElement.mk c _ _ _ => c

/-- The `tagName` field. -/
def JSONElement.tagName : JSONElement → String
  | JSONElement.mk _ t _ _ => t

/-- The `attributes` field. -/
def JSONElement.attributes : JSONElement → List (String × String)
  | JSONElement.mk _ _ a _ => a

/-- The `path` field. -/
def JSONElement.path : JSONElement → String
  | JSONElement.mk _ _ _ p => p

theorem sizeOf_children_lt (e : JSONElement) : sizeOf e.children < sizeOf e := by
  cases e with
  | mk c t a p =>
      simp only [JSONElement.children, JSONElement.mk.sizeOf_spec]
      omega

theorem mem_children_sizeOf_lt {c e : JSONElement} (h : c ∈ e.children) :
    sizeOf c < sizeOf e := by
  have h2 : sizeOf c < sizeOf e.children := List.sizeOf_lt_of_mem h
  exact Nat.lt_trans h2 (sizeOf_children_lt e)

/-- The decimal digit character of `d` (for `d < 10`). -/
def digitChar (d : Nat) : Char := Char.ofNat (48 + d)

/-- Decimal digit list of a natural number, most significant first;
models the JS number-to-string conversion in the template literal that
builds paths. -/
def natDigits (n : Nat) : List Char :=
  if _h : n < 10 then [digitChar n]
  else natDigits (n / 10) ++ [digitChar (n % 10)]
termination_by n
decreasing_by
  exact Nat.div_lt_self (by omega) (by omega)

/-- Decimal rendering of a natural number. -/
def natToString (n : Nat) : String := String.mk (natDigits n)

/-- The dot-separated extension of a stored path by one sibling index:
the template literal ``${parentPath ? parentPath + '.' : ''}${index}``
of source-parsing.ts line 89. -/
def joinIndex (p : String) (i : Nat) : String :=
  (if p == "" then "" else p ++ ".") ++ natToString i

theorem sizeOf_filter_le {α : Type} [SizeOf α] (p : α → Bool) (l : List α) :
    sizeOf (l.filter p) ≤ sizeOf l := by
  induction l with
  | nil => exact Nat.le_refl _
  | cons a as ih =>
      rw [List.filter_cons]
      by_cases h : p a
      · simp [h, List.cons.sizeOf_spec]
        omega
      · simp [h, List.cons.sizeOf_spec]
        omega

theorem sizeOf_childNodesOf_lt (d : DOMNode) : sizeOf (childNodesOf d) < sizeOf d :=
  Nat.lt_of_le_of_lt (sizeOf_filter_le _ _) (sizeOf_childNodes_lt d)

mutual

/-- Embedding of `translateRecursively` (source-parsing.ts lines
69-99): attributes with newlines escaped, the dot-separated index path,
and the recursively translated element children. -/
def translateRecursively (domNode : DOMNode) (parentPath : String) (index : Option Nat) :
    JSONElement :=
  let attributes := domNode.attributes.map (fun a => (a.1, String.replace a.2 "\n" "\\n"))
  let path :=
    match index with
    | none => ""
    | some i => joinIndex parentPath i
  JSONElement.mk (translateChildren (childNodesOf domNode) path 0)
    domNode.nodeName attributes path
termination_by sizeOf domNode
decreasing_by
  exact sizeOf_childNodesOf_lt domNode

/-- The indexed map over the element children performed by
`childNodesOf(domNode).map((childNode, childIndex) => ...)`, with the
running child index made explicit. -/
def translateChildren (children : List DOMNode) (path : String) (childIndex : Nat) :
    List JSONElement :=
  match children with
  | [] => []
  | c :: cs =>
      translateRecursively c path (some childIndex) :: translateChildren cs path (childIndex + 1)
termination_by sizeOf children
decreasing_by
  · simp only [List.cons.sizeOf_spec]
    omega
  · simp only [List.cons.sizeOf_spec]
    omega

end

mutual

/-- Embedding of `flattenElementTree` (source-parsing.ts lines
186-198): depth-first preorder traversal — the element, then the
flattened subtrees of its children in order. -/
def flattenElementTree (root : JSONElement) : List JSONElement :=
  root :: flattenChildList root.children
termination_by sizeOf root
decreasing_by
  exact sizeOf_children_lt root

/-- The traversal of a list of children in order. -/
def flattenChildList (children : List JSONElement) : List JSONElement :=
  match children with
  | [] => []
  | c :: cs => flattenElementTree c ++ flattenChildList cs
termination_by sizeOf children
decreasing_by
  · simp only [List.cons.sizeOf_spec]
    omega
  · simp only [List.cons.sizeOf_spec]
    omega

end

/-- Modelled from the spec: the outcome of `DOMParser.parseFromString`
from `@xmldom/xmldom`, a dependency whose code is not part of src/. Per
the spec (sections 4.1 and 7), a structural parse error surfaces either
as a thrown exception (`thrown`) or as `parsererror` elements in the
returned document (`parserErrorCount > 0`); otherwise the parser
returns the document's child nodes and its document element. -/
inductive ParseOutcome where
  | thrown
  | parsed (parserErrorCount : Nat) (docChildNodes : List DOMNode)
      (documentElement : Option DOMNode)

/-- Whether the parse outcome signals a structural parse error. -/
def hasStructuralError : ParseOutcome → Prop
  | ParseOutcome.thrown => True
  | ParseOutcome.parsed errs _ _ => 0 < errs

instance (o : ParseOutcome) : Decidable (hasStructuralError o) := by
  cases o with
  | thrown => exact isTrue trivial
  | parsed errs c d => exact Nat.decLt 0 errs

/-- Embedding of `xmlToJSON` (source-parsing.ts lines 106-131) over the
modelled parse outcome: `none` on a caught exception or on
`parsererror` elements; otherwise the translation of the first element
child (falling back to the document element's first element child), or
the empty element when there is none. -/
def xmlToJSON (outcome : ParseOutcome) : Option JSONElement :=
  match outcome with
  | ParseOutcome.thrown => none
  | ParseOutcome.parsed parserErrorCount docChildNodes documentElement =>
      if 0 < parserErrorCount then none
      else
        let children := docChildNodes.filter (fun c => c.nodeType == 1)
        let firstChild : Option DOMNode :=
          match children.head? with
          | some c => some c
          | none =>
              match documentElement with
              | some el => (childNodesOf el).head?
              | none => none
        match firstChild with
        | some el => some (translateRecursively el "" none)
        | none => some (JSONElement.mk [] "" [] "")

/-! ### Spec-side path derivation (claim C5) -/

/-- The subtree of a normalized tree reached by following sibling
indices from the root. -/
def subtreeAt : JSONElement → List Nat → Option JSONElement
  | e, [] => some e
  | e, i :: is =>
      match e.children[i]? with
      | some c => subtreeAt c is
      | none => none

/-- Path extension along a position. -/
def extendPath (p : String) : List Nat → String
  | [] => p
  | i :: is => extendPath (joinIndex p i) is

/-- The path re-derived from a position: sibling indices from the root,
dot-separated, empty for the root. -/
def renderPath (pos : List Nat) : String := extendPath "" pos

mutual

/-- All positions of a tree in depth-first preorder: the root's empty
position, then the children's positions prefixed by their sibling
index. -/
def allPositions (e : JSONElement) : List (List Nat) :=
  [] :: childPositions e.children 0
termination_by sizeOf e
decreasing_by
  exact sizeOf_children_lt e

/-- The positions contributed by a list of children starting at a
sibling index. -/
def childPositions (children : List JSONElement) (childIndex : Nat) : List (List Nat) :=
  match children with
  | [] => []
  | c :: cs =>
      (allPositions c).map (fun pos => childIndex :: pos) ++ childPositions cs (childIndex + 1)
termination_by sizeOf children
decreasing_by
  · simp only [List.cons.sizeOf_spec]
    omega
  · simp only [List.cons.sizeOf_spec]
    omega

end

/-! ## Uniqueness verifier (`src/locators/source-parsing.ts` lines 204-227)

`countAttributeOccurrences` escapes every regex metacharacter of the
value and counts global matches of ``attribute=["']value["']``. After
escaping, the value matches only itself, so a match of the regex at
some position is exactly one of the four literal words
`attr=` q1 `v` q2 with the quotes drawn independently from double and
single quote. The attribute name, however, is interpolated into the
regex without escaping; the embedding treats it literally, which
coincides with the code exactly when the name contains none of the
regex metacharacters of the source's escape class (`isRegexMetaChar`
below) — the theorem about this model carries that as a hypothesis. A
`g`-flagged `String.match` counts matches left to right, resuming after
the end of each match. -/

/-- The regex metacharacters of the escape class
`[.*+?^${}()|[\]\\]` used in source-parsing.ts line 210 (by character
code: `. * + ? ^ $ { } ( ) | [ ] \`). An attribute name containing
none of these is matched literally by the unescaped interpolation. -/
def isRegexMetaChar (c : Char) : Bool :=
  c.toNat ∈ [46, 42, 43, 63, 94, 36, 123, 125, 40, 41, 124, 91, 93, 92]

/-- The double-quote character. -/
def dQuote : Char := Char.ofNat 34

/-- The single-quote character. -/
def sQuote : Char := Char.ofNat 39

/-- Whether a character is matched by the regex class `["']`. -/
def isQuoteChar (c : Char) : Bool := c == dQuote || c == sQuote

/-- The literal word `attr=` q1 `v` q2 for concrete quote characters. -/
def attrPattern (attr v : List Char) (q1 q2 : Char) : List Char :=
  attr ++ '=' :: q1 :: (v ++ [q2])

/-- Whether the regex ``attr=["']v["']`` matches at the head of `doc`:
one of the four quote combinations is a prefix. -/
def matchesHere (attr v doc : List Char) : Bool :=
  (attrPattern attr v dQuote dQuote).isPrefixOf doc ||
  (attrPattern attr v dQuote sQuote).isPrefixOf doc ||
  (attrPattern attr v sQuote dQuote).isPrefixOf doc ||
  (attrPattern attr v sQuote sQuote).isPrefixOf doc

/-- The length of every word the regex can match. -/
def patternLength (attr v : List Char) : Nat := attr.length + v.length + 3

/-- The `g`-flagged match count: scan left to right, and after a match
resume at the first position past it. -/
def countMatchesFrom (attr v : List Char) : List Char → Nat
  | [] => 0
  | c :: cs =>
      if matchesHere attr v (c :: cs) then
        1 + countMatchesFrom attr v (cs.drop (attr.length + v.length + 2))
      else
        countMatchesFrom attr v cs
termination_by doc => doc.length
decreasing_by
  all_goals simp [List.length_drop]
  omega

/-- Embedding of `countAttributeOccurrences` (source-parsing.ts lines
204-216). -/
def countAttributeOccurrences (sourceXML attributeName value : String) : Nat :=
  countMatchesFrom attributeName.data value.data sourceXML.data

/-- Embedding of `isAttributeUnique` (source-parsing.ts lines 221-227). -/
def isAttributeUnique (sourceXML attributeName value : String) : Bool :=
  countAttributeOccurrences sourceXML attributeName value == 1

/-- Spec-side count for C1 as written: the number of positions of the
document at which the literal pattern `attr="v"` — double quotes on
both sides — occurs. -/
def countLiteralOccurrences (sourceXML attributeName value : String) : Nat :=
  ((List.range sourceXML.data.length).filter
    (fun i => (attrPattern attributeName.data value.data dQuote dQuote).isPrefixOf
      (sourceXML.data.drop i))).length

/-- Spec-side count for the amended C1: the number of positions of the
document at which the quoted pattern occurs (either quote character on
either side). -/
def countQuotedOccurrences (sourceXML attributeName value : String) : Nat :=
  ((List.range sourceXML.data.length).filter
    (fun i => matchesHere attributeName.data value.data (sourceXML.data.drop i))).length

/-- Structural-recursion form of the position count: occurrences at the
head, plus occurrences within the tail. -/
def countPositions (attr v : List Char) : List Char → Nat
  | [] => 0
  | c :: cs => (if matchesHere attr v (c :: cs) then 1 else 0) + countPositions attr v cs

/-! ## Theorems -/

theorem isValid_eq_usableValue (v : Option String) : isValid v = usableValue v := by
  cases v with
  | none => rfl
  | some s => simp [isValid, usableValue, bne]

theorem pushIfValid_eq_slot (v : Option String) (mk : String → String) :
    pushIfValid v mk = (specSlot v false mk).toList := by
  cases v with
  | none => rfl
  | some s =>
      simp only [pushIfValid, specSlot, isValid_eq_usableValue, Bool.not_false, Bool.true_or,
        Bool.and_true]
      split_ifs <;> rfl

theorem pushTextIfValid_eq_slot (v : Option String) (mk : String → String) :
    pushTextIfValid v mk = (specSlot v true mk).toList := by
  cases v with
  | none => rfl
  | some s =>
      simp only [pushTextIfValid, specSlot, isValid_eq_usableValue, Bool.not_true,
        Bool.false_or]
      split_ifs <;> simp_all

theorem filterMap_id_cons {α : Type} (o : Option α) (l : List (Option α)) :
    (o :: l).filterMap id = o.toList ++ l.filterMap id := by
  cases o <;> simp [List.filterMap_cons]

/-- A usable visible-text value of length 100 (one hundred `a`s). -/
def longText100 : String := String.mk (List.replicate 100 'a')

/-- Counterexample to C2 as stated: the claim puts the 100-character
text ceiling on the Android slot only, but the code caps iOS text too —
for a usable iOS text of length 100 the code produces no label
candidate while the claim's priority list demands one. -/
theorem ios_text_cap_counterexample :
    isValid (some longText100) = true ∧
    buildAllMobileSelectors Platform.ios
      { resourceId := none, contentDesc := none, accessibilityId := none,
        text := some longText100, className := none } = [] ∧
    buildAllMobileSelectorsSpec Platform.ios
      { resourceId := none, contentDesc := none, accessibilityId := none,
        text := some longText100, className := none } =
      ["-ios predicate string:label == \"" ++ longText100 ++ "\""] := by
  refine ⟨by decide, by decide, by decide⟩

/-- C2 amended: for every attribute bag and platform,
`buildAllMobileSelectors` returns exactly the selectors of the usable
attributes in the fixed platform priority order — Android: resource
identifier, content description, visible text, class name; iOS:
accessibility identifier, visible text/label, type/class chain — where
a value is usable only if it is present, not the literal token "null",
and not blank after trimming, and the visible-text slot on either
platform additionally requires the text length to be below the
configured ceiling of 100; being a pure function, two invocations on
the same inputs return identical ordered lists. -/
theorem buildAllMobileSelectors_eq_amended_spec (platform : Platform) (a : MobileAttributes) :
    buildAllMobileSelectors platform a = buildAllMobileSelectorsAmendedSpec platform a ∧
    buildAllMobileSelectors platform a = buildAllMobileSelectors platform a := by
  refine ⟨?_, rfl⟩
  cases platform <;>
    simp [buildAllMobileSelectors, buildAllMobileSelectorsAmendedSpec, pushIfValid_eq_slot,
      pushTextIfValid_eq_slot, filterMap_id_cons]

/-- C10: generated selector strings embed attribute values verbatim,
with no escaping or sanitization: for every usable value `v` the
Android resource-id candidate is exactly
`android=new UiSelector().resourceId("` + v + `")`, the Android text
candidate `android=new UiSelector().text("` + v + `")`, and the iOS
label candidate `-ios predicate string:label == "` + v + `"`; in
particular a value containing a double-quote character is inserted
unescaped into the quoted selector syntax. -/
theorem selector_strings_embed_value_verbatim (v : String) (h : isValid (some v) = true) :
    buildAllMobileSelectors Platform.android
      { resourceId := some v, contentDesc := none, accessibilityId := none,
        text := none, className := none } =
      ["android=new UiSelector().resourceId(\"" ++ v ++ "\")"] ∧
    (v.length < 100 →
      buildAllMobileSelectors Platform.android
        { resourceId := none, contentDesc := none, accessibilityId := none,
          text := some v, className := none } =
        ["android=new UiSelector().text(\"" ++ v ++ "\")"]) ∧
    (v.length < 100 →
      buildAllMobileSelectors Platform.ios
        { resourceId := none, contentDesc := none, accessibilityId := none,
          text := some v, className := none } =
        ["-ios predicate string:label == \"" ++ v ++ "\""]) := by
  refine ⟨?_, ?_, ?_⟩
  · simp [buildAllMobileSelectors, pushIfValid, pushTextIfValid, h]
  · intro hlen
    simp [buildAllMobileSelectors, pushIfValid, pushTextIfValid, h, hlen]
  · intro hlen
    simp [buildAllMobileSelectors, pushIfValid, pushTextIfValid, h, hlen]

/-- Witness for C10 at the value `a"b`, which contains a double quote:
the quote is embedded unescaped in the selector string. -/
theorem selector_strings_embed_value_verbatim_witness :
    isValid (some "a\"b") = true ∧
    buildAllMobileSelectors Platform.android
      { resourceId := some "a\"b", contentDesc := none, accessibilityId := none,
        text := none, className := none } =
      ["android=new UiSelector().resourceId(\"" ++ "a\"b" ++ "\")"] :=
  ⟨by decide, (selector_strings_embed_value_verbatim "a\"b" (by decide)).1⟩

/-- Counterexample to C3 as stated: the android resolver returns a
negative width and height on the well-bracketed input `[5,5][2,2]`, and
the iOS resolver parses a present non-numeric attribute to NaN (not 0)
and a negative numeric attribute to a negative value. -/
theorem bounds_resolvers_counterexample :
    parseAndroidBounds "[5,5][2,2]" = { x := 5, y := 5, width := -3, height := -3 } ∧
    (parseIOSBounds [("x", "abc")]).x = none ∧
    (parseIOSBounds [("width", "-4")]).width = some (-4) := by
  refine ⟨?_, ?_, ?_⟩ <;> decide

/-- C3 amended: both bounds resolvers are pure, total functions.
`parseAndroidBounds` returns the zero rectangle when the bracket
pattern `[x1,y1][x2,y2]` does not match, and otherwise a rectangle with
non-negative `x` and `y` whose opposite corner `x + width`, `y + height`
is also non-negative — but `width`/`height` themselves may be negative
when the second corner lies left of or above the first.
`parseIOSBounds` defaults a coordinate to 0 when the corresponding
attribute is absent (or empty), but a present unparseable value yields
NaN rather than 0. -/
theorem bounds_resolvers_total (s : String) (attributes : ElementAttributes) :
    (0 ≤ (parseAndroidBounds s).x ∧ 0 ≤ (parseAndroidBounds s).y ∧
      0 ≤ (parseAndroidBounds s).x + (parseAndroidBounds s).width ∧
      0 ≤ (parseAndroidBounds s).y + (parseAndroidBounds s).height) ∧
    (findBoundsMatch s.data = none →
      parseAndroidBounds s = { x := 0, y := 0, width := 0, height := 0 }) ∧
    (attrLookup attributes "x" = none → (parseIOSBounds attributes).x = some 0) ∧
    (attrLookup attributes "y" = none → (parseIOSBounds attributes).y = some 0) ∧
    (attrLookup attributes "width" = none → (parseIOSBounds attributes).width = some 0) ∧
    (attrLookup attributes "height" = none → (parseIOSBounds attributes).height = some 0) := by
  refine ⟨?_, ?_, ?_, ?_, ?_, ?_⟩
  · cases hm : findBoundsMatch s.data with
    | none => simp [parseAndroidBounds, hm]
    | some r =>
        obtain ⟨x1, y1, x2, y2⟩ := r
        simp only [parseAndroidBounds, hm]
        refine ⟨by positivity, by positivity, by omega, by omega⟩
  · intro hm
    simp [parseAndroidBounds, hm]
  · intro hl
    simp only [parseIOSBounds, hl, jsOrDefault]
    decide
  · intro hl
    simp only [parseIOSBounds, hl, jsOrDefault]
    decide
  · intro hl
    simp only [parseIOSBounds, hl, jsOrDefault]
    decide
  · intro hl
    simp only [parseIOSBounds, hl, jsOrDefault]
    decide

/-- Witness for C3 amended: a matching input, a non-matching input, and
the empty attribute bag. -/
theorem bounds_resolvers_total_witness :
    (0 ≤ (parseAndroidBounds "[1,2][7,9]").x ∧
      0 ≤ (parseAndroidBounds "[1,2][7,9]").x + (parseAndroidBounds "[1,2][7,9]").width) ∧
    parseAndroidBounds "garbage" = { x := 0, y := 0, width := 0, height := 0 } ∧
    (parseIOSBounds []).x = some 0 := by
  refine ⟨⟨(bounds_resolvers_total "[1,2][7,9]" []).1.1,
    (bounds_resolvers_total "[1,2][7,9]" []).1.2.2.1⟩,
    (bounds_resolvers_total "garbage" []).2.1 (by decide),
    (bounds_resolvers_total "[1,2][7,9]" []).2.2.1 (by decide)⟩

theorem scanBatches_fuel (platform : Platform) (vw vh : Int) :
    ∀ n (l : List ElementFetches), l.length ≤ n →
      scanBatches platform vw vh l = l.filterMap (processMobileElement platform vw vh) := by
  intro n
  induction n with
  | zero =>
      intro l hl
      have h0 : l = [] := List.eq_nil_of_length_eq_zero (Nat.le_zero.mp hl)
      subst h0
      simp [scanBatches]
  | succ n ih =>
      intro l hl
      match l with
      | [] => simp [scanBatches]
      | e :: es =>
          have hdrop : ((e :: es).drop 10).length ≤ n := by
            simp only [List.length_drop, List.length_cons]
            simp only [List.length_cons] at hl
            omega
          rw [scanBatches, ih _ hdrop, ← List.filterMap_append, List.take_append_drop]

/-- The batch loop keeps exactly the non-dropped results of every
element, in order. -/
theorem scanBatches_eq_filterMap (platform : Platform) (vw vh : Int)
    (l : List ElementFetches) :
    scanBatches platform vw vh l = l.filterMap (processMobileElement platform vw vh) :=
  scanBatches_fuel platform vw vh l.length l (Nat.le_refl _)

theorem getMobileVisibleElements_ok (platform : Platform) (s : Sz)
    (l : List ElementFetches) :
    getMobileVisibleElements platform (Except.ok s) l =
      l.filterMap (processMobileElement platform s.width s.height) := by
  simp [getMobileVisibleElements, scanBatches_eq_filterMap]

theorem getMobileVisibleElements_error (platform : Platform) (l : List ElementFetches) :
    getMobileVisibleElements platform (Except.error ()) l =
      l.filterMap (processMobileElement platform 9999 9999) := by
  simp [getMobileVisibleElements, scanBatches_eq_filterMap]

theorem buildAllMobileSelectors_all_none (platform : Platform) :
    buildAllMobileSelectors platform
      { resourceId := none, contentDesc := none, accessibilityId := none,
        text := none, className := none } = [] := by
  cases platform <;> rfl

/-- An element whose text and attribute fetches all fail contributes no
record, whatever its displayed state. -/
theorem processMobileElement_attr_failures_none (platform : Platform) (vw vh : Int)
    (e : ElementFetches)
    (ht : e.getText = Except.error ()) (hr : e.attrResourceId = Except.error ())
    (hc : e.attrContentDesc = Except.error ()) (hn : e.attrName = Except.error ())
    (hcl : e.attrClass = Except.error ()) :
    processMobileElement platform vw vh e = none := by
  have hattrs : degradedAttributes e =
      { resourceId := none, contentDesc := none, accessibilityId := none,
        text := none, className := none } := by
    simp [degradedAttributes, ht, hr, hc, hn, hcl, catchAttr, catchToNone]
  cases hd : e.isDisplayed with
  | error u =>
      cases u
      simp [processMobileElement, hd]
  | ok b =>
      cases b with
      | false => simp [processMobileElement, hd]
      | true =>
          simp [processMobileElement, hd, hattrs, buildAllMobileSelectors_all_none]

/-- C6: per-element fault isolation. For every collection of live
elements, an element all of whose attribute fetches fail is dropped
while every element before and after it — in the same or in later
batches — is still processed: the scan returns exactly the records of
the other elements, and `getMobileVisibleElements` raises no error. -/
theorem scan_fault_isolation (platform : Platform) (windowSize : Except Unit Sz)
    (pre post : List ElementFetches) (bad : ElementFetches)
    (ht : bad.getText = Except.error ()) (hr : bad.attrResourceId = Except.error ())
    (hc : bad.attrContentDesc = Except.error ()) (hn : bad.attrName = Except.error ())
    (hcl : bad.attrClass = Except.error ()) :
    getMobileVisibleElements platform windowSize (pre ++ bad :: post) =
      getMobileVisibleElements platform windowSize pre ++
        getMobileVisibleElements platform windowSize post := by
  cases windowSize with
  | ok s =>
      rw [getMobileVisibleElements_ok, getMobileVisibleElements_ok,
        getMobileVisibleElements_ok, List.filterMap_append, List.filterMap_cons,
        processMobileElement_attr_failures_none platform s.width s.height bad ht hr hc hn hcl]
  | error u =>
      cases u
      rw [getMobileVisibleElements_error, getMobileVisibleElements_error,
        getMobileVisibleElements_error, List.filterMap_append, List.filterMap_cons,
        processMobileElement_attr_failures_none platform 9999 9999 bad ht hr hc hn hcl]

/-- A healthy element used by the C6 witness. -/
def eHealthyC6 : ElementFetches :=
  { isDisplayed := Except.ok true, getTagName := Except.ok "android.widget.Button",
    getText := Except.ok "Go", attrResourceId := Except.ok (some "btn1"),
    attrContentDesc := Except.ok none, attrName := Except.ok none,
    attrLabel := Except.ok none, attrValue := Except.ok none,
    attrClass := Except.ok (some "android.widget.Button"),
    isEnabled := Except.ok true, getLocation := Except.ok { x := 0, y := 0 },
    getSize := Except.ok { width := 10, height := 10 } }

/-- An element whose text and attribute fetches always fail, used by
the C6 witness. -/
def eBadC6 : ElementFetches :=
  { isDisplayed := Except.ok true, getTagName := Except.error (),
    getText := Except.error (), attrResourceId := Except.error (),
    attrContentDesc := Except.error (), attrName := Except.error (),
    attrLabel := Except.error (), attrValue := Except.error (),
    attrClass := Except.error (), isEnabled := Except.error (),
    getLocation := Except.error (), getSize := Except.error () }

/-- Witness for C6: a batch of ten elements in which one element's
fetches always fail and nine are healthy yields exactly nine records. -/
theorem scan_fault_isolation_witness :
    (getMobileVisibleElements Platform.android (Except.ok { width := 1000, height := 2000 })
      (List.replicate 4 eHealthyC6 ++ eBadC6 :: List.replicate 5 eHealthyC6)).length = 9 := by
  rw [scan_fault_isolation Platform.android _ _ _ eBadC6 rfl rfl rfl rfl rfl,
    getMobileVisibleElements_ok, getMobileVisibleElements_ok]
  decide

/-- C8: for every processed element, the emitted `isInViewport` flag is
true exactly when the element's bounding box is fully contained in
`[0, 0, viewportWidth, viewportHeight]`; and when the window-size query
fails, the viewport dimensions default to the sentinel 9999 by 9999,
so the scan proceeds instead of failing. -/
theorem viewport_membership (platform : Platform) (vw vh : Int) (e : ElementFetches)
    (r : MobileElementInfo) (h : processMobileElement platform vw vh e = some r) :
    (r.isInViewport = true ↔
      0 ≤ r.bounds.x ∧ 0 ≤ r.bounds.y ∧ r.bounds.x + r.bounds.width ≤ vw ∧
        r.bounds.y + r.bounds.height ≤ vh) ∧
    (∀ es, getMobileVisibleElements platform (Except.error ()) es =
      es.filterMap (processMobileElement platform 9999 9999)) := by
  refine ⟨?_, fun es => getMobileVisibleElements_error platform es⟩
  cases hd : e.isDisplayed with
  | error u => cases u; simp [processMobileElement, hd] at h
  | ok b =>
      cases b with
      | false => simp [processMobileElement, hd] at h
      | true =>
          simp only [processMobileElement, hd] at h
          rcases hs : buildAllMobileSelectors platform (degradedAttributes e) with _ | ⟨s0, rest⟩
          · rw [hs] at h
            simp at h
          · rw [hs] at h
            simp only [Option.some.injEq] at h
            subst h
            simp [Bool.and_eq_true, decide_eq_true_eq, and_assoc]

/-- C9: for every displayed element, an empty candidate list means the
element is skipped (no record); otherwise the record's primary selector
is exactly the first candidate, and `alternativeSelectors` holds at
most the second candidate, the field being omitted when no second
candidate exists. -/
theorem primary_selector_and_alternates (platform : Platform) (vw vh : Int)
    (e : ElementFetches) (hdisp : e.isDisplayed = Except.ok true) :
    (buildAllMobileSelectors platform (degradedAttributes e) = [] →
      processMobileElement platform vw vh e = none) ∧
    (∀ s rest, buildAllMobileSelectors platform (degradedAttributes e) = s :: rest →
      ∃ r, processMobileElement platform vw vh e = some r ∧ r.selector = s ∧
        r.alternativeSelectors = if rest.isEmpty then none else some (rest.take 1)) := by
  constructor
  · intro hs
    simp [processMobileElement, hdisp, hs]
  · intro s rest hs
    rcases hp : processMobileElement platform vw vh e with _ | r
    · exfalso
      simp [processMobileElement, hdisp, hs] at hp
    · refine ⟨r, rfl, ?_, ?_⟩
      · simp only [processMobileElement, hdisp, hs, Option.some.injEq] at hp
        subst hp
        rfl
      · simp only [processMobileElement, hdisp, hs, Option.some.injEq] at hp
        subst hp
        cases rest <;> simp

/-- The element used by the C7 counterexample: displayed, with a valid
resource id, but with failing `isEnabled` and `getLocation` fetches. -/
def eEnabledFailsC7 : ElementFetches :=
  { isDisplayed := Except.ok true, getTagName := Except.ok "android.widget.Button",
    getText := Except.ok "Go", attrResourceId := Except.ok (some "btn1"),
    attrContentDesc := Except.ok none, attrName := Except.ok none,
    attrLabel := Except.ok none, attrValue := Except.ok none,
    attrClass := Except.ok none, isEnabled := Except.error (),
    getLocation := Except.error (), getSize := Except.ok { width := 10, height := 10 } }

/-- Counterexample to C7 as stated: a failing `isEnabled` fetch does
not degrade to an absent value — the emitted record carries the present
concrete value `true` — and a failing `getLocation` fetch yields the
concrete origin (0, 0) rather than absence. -/
theorem fetch_failure_substitutes_value :
    eEnabledFailsC7.isEnabled = Except.error () ∧
    eEnabledFailsC7.getLocation = Except.error () ∧
    (processMobileElement Platform.android 100 100 eEnabledFailsC7).map
      (fun r => (r.isEnabled, r.bounds.x, r.bounds.y)) = some (true, 0, 0) := by
  refine ⟨rfl, rfl, ?_⟩
  decide

/-- C7 amended: after a successful displayed check, fetch failures never
abort the element — a record is withheld only when the element is not
displayed or no candidate selector exists — and each failure degrades
per field: tag name, text and the five attribute fetches degrade to an
absent value, while `isEnabled` defaults to the concrete value `true`,
and location and size default to zeros. -/
theorem fetch_degradation (platform : Platform) (vw vh : Int) (e : ElementFetches) :
    (processMobileElement platform vw vh e = none ↔
      e.isDisplayed ≠ Except.ok true ∨
        buildAllMobileSelectors platform (degradedAttributes e) = []) ∧
    (∀ r, processMobileElement platform vw vh e = some r →
      (e.getTagName = Except.error () → r.tagName = none) ∧
      (e.getText = Except.error () → r.text = none) ∧
      (e.attrResourceId = Except.error () → r.resourceId = none) ∧
      (e.attrContentDesc = Except.error () → r.contentDesc = none) ∧
      (e.attrName = Except.error () → r.accessibilityId = none) ∧
      (e.attrLabel = Except.error () → r.label = none) ∧
      (e.attrValue = Except.error () → r.value = none) ∧
      (e.attrClass = Except.error () → r.className = none) ∧
      (e.isEnabled = Except.error () → r.isEnabled = true) ∧
      (e.getLocation = Except.error () → r.bounds.x = 0 ∧ r.bounds.y = 0) ∧
      (e.getSize = Except.error () → r.bounds.width = 0 ∧ r.bounds.height = 0)) := by
  constructor
  · cases hd : e.isDisplayed with
    | error u =>
        cases u
        simp [processMobileElement, hd]
    | ok b =>
        cases b with
        | false => simp [processMobileElement, hd]
        | true =>
            rcases hs : buildAllMobileSelectors platform (degradedAttributes e) with _ | ⟨s0, rest⟩
            · simp [processMobileElement, hd, hs]
            · simp [processMobileElement, hd, hs]
  · intro r h
    cases hd : e.isDisplayed with
    | error u => cases u; simp [processMobileElement, hd] at h
    | ok b =>
        cases b with
        | false => simp [processMobileElement, hd] at h
        | true =>
            simp only [processMobileElement, hd] at h
            rcases hs : buildAllMobileSelectors platform (degradedAttributes e) with _ | ⟨s0, rest⟩
            · rw [hs] at h
              simp at h
            · rw [hs] at h
              simp only [Option.some.injEq] at h
              subst h
              refine ⟨?_, ?_, ?_, ?_, ?_, ?_, ?_, ?_, ?_, ?_, ?_⟩ <;> intro hf <;>
                simp [hf, catchToNone, catchAttr, catchEnabled, catchLocation, catchSize,
                  isValid]

/-- Witness for C7 amended, applied to an element with a failing text
fetch but a valid resource id. -/
def eTextFailsC7 : ElementFetches :=
  { isDisplayed := Except.ok true, getTagName := Except.ok "android.widget.Button",
    getText := Except.error (), attrResourceId := Except.ok (some "btn1"),
    attrContentDesc := Except.ok none, attrName := Except.ok none,
    attrLabel := Except.ok none, attrValue := Except.ok none,
    attrClass := Except.ok none, isEnabled := Except.ok true,
    getLocation := Except.ok { x := 1, y := 2 },
    getSize := Except.ok { width := 3, height := 4 } }

/-- Witness for C7 amended: the text-failure element is still emitted,
with `text` absent. -/
theorem fetch_degradation_witness :
    (processMobileElement Platform.android 100 100 eTextFailsC7).map
      (fun r => r.text) = some none := by
  rcases hr : processMobileElement Platform.android 100 100 eTextFailsC7 with _ | r
  · exfalso
    rcases (fetch_degradation Platform.android 100 100 eTextFailsC7).1.mp hr with h2 | h2
    · exact h2 rfl
    · exact absurd h2 (by decide)
  · simpa using ((fetch_degradation Platform.android 100 100 eTextFailsC7).2 r hr).2.1 rfl

/-- The element used by the C8 witness: displayed, fully inside a
100 by 100 viewport. -/
def eViewportC8 : ElementFetches :=
  { isDisplayed := Except.ok true, getTagName := Except.ok "android.widget.Button",
    getText := Except.ok "Go", attrResourceId := Except.ok (some "btn1"),
    attrContentDesc := Except.ok none, attrName := Except.ok none,
    attrLabel := Except.ok none, attrValue := Except.ok none,
    attrClass := Except.ok none, isEnabled := Except.ok true,
    getLocation := Except.ok { x := 5, y := 5 },
    getSize := Except.ok { width := 10, height := 10 } }

/-- The record the scan emits for `eViewportC8`. -/
def rViewportC8 : MobileElementInfo :=
  { tagName := some "android.widget.Button", text := some "Go",
    resourceId := some "btn1", contentDesc := none, accessibilityId := none,
    label := none, value := none, className := none,
    selector := "android=new UiSelector().resourceId(\"btn1\")",
    alternativeSelectors := some ["android=new UiSelector().text(\"Go\")"],
    isInViewport := true, isEnabled := true,
    bounds := { x := 5, y := 5, width := 10, height := 10 } }

/-- Witness for C8: the record of `eViewportC8` has `isInViewport` true
because its box lies inside the viewport. -/
theorem viewport_membership_witness : rViewportC8.isInViewport = true :=
  (viewport_membership Platform.android 100 100 eViewportC8 rViewportC8
    (by decide)).1.mpr (by decide)

/-- The element used by the C9 witness: displayed but with no usable
attribute value at all. -/
def eNoSelectorC9 : ElementFetches :=
  { isDisplayed := Except.ok true, getTagName := Except.ok "XCUIElementTypeOther",
    getText := Except.ok "", attrResourceId := Except.ok none,
    attrContentDesc := Except.ok none, attrName := Except.ok (some "null"),
    attrLabel := Except.ok none, attrValue := Except.ok none,
    attrClass := Except.ok (some "   "), isEnabled := Except.ok true,
    getLocation := Except.ok { x := 0, y := 0 },
    getSize := Except.ok { width := 1, height := 1 } }

/-- Witness for C9: the displayed element with an empty candidate list
is skipped entirely. -/
theorem primary_selector_and_alternates_witness :
    processMobileElement Platform.ios 10 10 eNoSelectorC9 = none :=
  (primary_selector_and_alternates Platform.ios 10 10 eNoSelectorC9 (by decide)).1
    (by decide)

/-- C4: for every parse outcome signalling a structural parse error
(a thrown exception or `parsererror` elements, as for
`<Root><Unclosed>`), `xmlToJSON` returns the failure signal `null` and
never a partial tree; a non-null result is returned exactly when the
document parses without error. -/
theorem xmlToJSON_error_signalling (o : ParseOutcome) :
    (hasStructuralError o → xmlToJSON o = none) ∧
    ((∃ t, xmlToJSON o = some t) ↔ ¬ hasStructuralError o) := by
  cases o with
  | thrown => simp [xmlToJSON, hasStructuralError]
  | parsed errs docChildNodes documentElement =>
      by_cases herr : 0 < errs
      · constructor
        · intro _
          simp [xmlToJSON, herr]
        · simp [xmlToJSON, hasStructuralError, herr]
      · constructor
        · intro hfalse
          exact absurd hfalse herr
        · simp only [xmlToJSON, if_neg herr, hasStructuralError]
          constructor
          · intro _
            exact herr
          · intro _
            rcases hfc : (match (docChildNodes.filter (fun c => c.nodeType == 1)).head? with
              | some c => some c
              | none =>
                  match documentElement with
                  | some el => (childNodesOf el).head?
                  | none => none : Option DOMNode) with _ | el
            · exact ⟨JSONElement.mk [] "" [] "", rfl⟩
            · exact ⟨translateRecursively el "" none, rfl⟩

/-- Witness for C4: a thrown parse, a document with a `parsererror`
element, and a clean empty document. -/
theorem xmlToJSON_error_signalling_witness :
    xmlToJSON ParseOutcome.thrown = none ∧
    xmlToJSON (ParseOutcome.parsed 1 [] none) = none ∧
    ¬ hasStructuralError (ParseOutcome.parsed 0 [] none) :=
  ⟨(xmlToJSON_error_signalling ParseOutcome.thrown).1 trivial,
   (xmlToJSON_error_signalling (ParseOutcome.parsed 1 [] none)).1 (by decide),
   (xmlToJSON_error_signalling (ParseOutcome.parsed 0 [] none)).2.mp
     ⟨JSONElement.mk [] "" [] "", rfl⟩⟩

theorem length_attrPattern (attr v : List Char) (q1 q2 : Char) :
    (attrPattern attr v q1 q2).length = patternLength attr v := by
  simp only [attrPattern, patternLength, List.length_append, List.length_cons,
    List.length_nil]
  omega

theorem attrPattern_def (attr v : List Char) (q1 q2 : Char) :
    attrPattern attr v q1 q2 = attr ++ '=' :: q1 :: (v ++ [q2]) := rfl

theorem isQuoteChar_iff (c : Char) : isQuoteChar c = true ↔ c = dQuote ∨ c = sQuote := by
  simp [isQuoteChar]

theorem isQuoteChar_ne_eq_sign {c : Char} (h : isQuoteChar c = true) : c ≠ '=' := by
  rw [isQuoteChar_iff] at h
  rcases h with rfl | rfl <;> decide

theorem matchesHere_iff (attr v doc : List Char) :
    matchesHere attr v doc = true ↔
      ∃ q1 q2, isQuoteChar q1 = true ∧ isQuoteChar q2 = true ∧
        attrPattern attr v q1 q2 <+: doc := by
  constructor
  · intro h
    simp only [matchesHere, Bool.or_eq_true, List.isPrefixOf_iff_prefix] at h
    rcases h with ((h | h) | h) | h
    · exact ⟨dQuote, dQuote, by decide, by decide, h⟩
    · exact ⟨dQuote, sQuote, by decide, by decide, h⟩
    · exact ⟨sQuote, dQuote, by decide, by decide, h⟩
    · exact ⟨sQuote, sQuote, by decide, by decide, h⟩
  · rintro ⟨q1, q2, hq1, hq2, hp⟩
    rw [isQuoteChar_iff] at hq1 hq2
    simp only [matchesHere, Bool.or_eq_true, List.isPrefixOf_iff_prefix]
    rcases hq1 with rfl | rfl <;> rcases hq2 with rfl | rfl <;> tauto

theorem attrPattern_getElem_attr (attr v : List Char) (q1 q2 : Char) {m : Nat}
    (hm : m < attr.length) (hmp : m < (attrPattern attr v q1 q2).length) :
    (attrPattern attr v q1 q2)[m] = attr[m] :=
  List.getElem_append_left hm

theorem attrPattern_getElem_eq_sign (attr v : List Char) (q1 q2 : Char)
    (hmp : attr.length < (attrPattern attr v q1 q2).length) :
    (attrPattern attr v q1 q2)[attr.length] = '=' := by
  have hb : attr.length < (attr ++ '=' :: q1 :: (v ++ [q2])).length := by
    simpa only [attrPattern_def] using hmp
  have h1 : (attr ++ '=' :: q1 :: (v ++ [q2]))[attr.length] =
      ('=' :: q1 :: (v ++ [q2]))[attr.length - attr.length] :=
    @List.getElem_append_right Char attr ('=' :: q1 :: (v ++ [q2])) attr.length
      (Nat.le_refl _) hb
  simp only [attrPattern_def]
  rw [h1]
  simp

theorem attrPattern_eq_concat (attr v : List Char) (q1 q2 : Char) :
    attrPattern attr v q1 q2 = (attr ++ '=' :: q1 :: v) ++ [q2] := by
  simp [attrPattern]

theorem attrPattern_getElem_last (attr v : List Char) (q1 q2 : Char)
    (hmp : patternLength attr v - 1 < (attrPattern attr v q1 q2).length) :
    (attrPattern attr v q1 q2)[patternLength attr v - 1] = q2 := by
  have hb : patternLength attr v - 1 < ((attr ++ '=' :: q1 :: v) ++ [q2]).length := by
    simpa only [attrPattern_eq_concat] using hmp
  have h1 : ((attr ++ '=' :: q1 :: v) ++ [q2])[patternLength attr v - 1] = q2 :=
    List.getElem_concat_length (attr ++ '=' :: q1 :: v) q2 (patternLength attr v - 1)
      (by
        simp only [patternLength, List.length_append, List.length_cons]
        omega) hb
  simpa only [attrPattern_eq_concat] using h1

theorem attrPattern_getElem_tail_mem (attr v : List Char) (q1 q2 : Char) {k : Nat}
    (hk1 : attr.length < k) (hk2 : k < patternLength attr v)
    (hmp : k < (attrPattern attr v q1 q2).length) :
    (attrPattern attr v q1 q2)[k] ∈ q1 :: (v ++ [q2]) := by
  have hb : k < (attr ++ '=' :: q1 :: (v ++ [q2])).length := by
    simpa only [attrPattern_def] using hmp
  have hlen : k - attr.length < ('=' :: q1 :: (v ++ [q2])).length := by
    simp only [List.length_cons, List.length_append, List.length_nil]
    simp only [patternLength] at hk2
    omega
  have hrec2 : (attr ++ '=' :: q1 :: (v ++ [q2]))[k] =
      ('=' :: q1 :: (v ++ [q2]))[k - attr.length] :=
    @List.getElem_append_right Char attr ('=' :: q1 :: (v ++ [q2])) k
      (Nat.le_of_lt hk1) hb
  have hk3 : k - attr.length = (k - attr.length - 1) + 1 := by omega
  have hlen3 : k - attr.length - 1 < (q1 :: (v ++ [q2])).length := by
    simp only [List.length_cons, List.length_append, List.length_nil]
    simp only [patternLength] at hk2
    omega
  have hlen4 : (k - attr.length - 1) + 1 < ('=' :: q1 :: (v ++ [q2])).length := by
    simp only [List.length_cons] at hlen ⊢
    omega
  have hstep : ('=' :: q1 :: (v ++ [q2]))[(k - attr.length - 1) + 1] =
      (q1 :: (v ++ [q2]))[k - attr.length - 1] :=
    List.getElem_cons_succ _ _ _ _
  have hmem : (q1 :: (v ++ [q2]))[k - attr.length - 1] ∈ q1 :: (v ++ [q2]) :=
    List.getElem_mem hlen3
  simp only [← hk3] at hstep
  simp only [attrPattern_def]
  rw [hrec2, hstep]
  exact hmem

/-- Under the stated character conditions, two regex matches cannot
overlap: a match at the start of `doc` excludes any match starting
strictly inside it. -/
theorem no_overlapping_match (attr v : List Char)
    (hattr : ∀ c ∈ attr, isQuoteChar c = false) (hv : '=' ∉ v)
    (doc : List Char) (h0 : matchesHere attr v doc = true)
    (d : Nat) (hd0 : 0 < d) (hdL : d < patternLength attr v) :
    matchesHere attr v (doc.drop d) = false := by
  by_contra hcon
  rw [Bool.not_eq_false, matchesHere_iff] at hcon
  rw [matchesHere_iff] at h0
  obtain ⟨q1, q2, hq1, hq2, hp0⟩ := h0
  obtain ⟨q3, q4, hq3, hq4, hpd⟩ := hcon
  have hL3 : 3 ≤ patternLength attr v := by simp only [patternLength]; omega
  have hlen0 : patternLength attr v ≤ doc.length := by
    rw [← length_attrPattern attr v q1 q2]
    exact hp0.length_le
  have hlend : d + patternLength attr v ≤ doc.length := by
    have h1 := hpd.length_le
    rw [length_attrPattern] at h1
    rw [List.length_drop] at h1
    omega
  by_cases hcase : d + attr.length < patternLength attr v
  · -- the second match's '=' falls in the quoted tail of the first match
    have hb1 : attr.length < (attrPattern attr v q3 q4).length := by
      rw [length_attrPattern]
      simp only [patternLength]
      omega
    have hb2 : d + attr.length < doc.length := by omega
    have hb2a : attr.length < (doc.drop d).length := by
      rw [List.length_drop]
      omega
    have h1 : (doc.drop d)[attr.length] = '=' := by
      rw [← hpd.getElem hb1]
      exact attrPattern_getElem_eq_sign attr v q3 q4 hb1
    have h2 : doc[d + attr.length] = '=' := by
      rw [← List.getElem_drop]
      exact h1
    have hb3 : d + attr.length < (attrPattern attr v q1 q2).length := by
      rw [length_attrPattern]
      omega
    have h3 : doc[d + attr.length] = (attrPattern attr v q1 q2)[d + attr.length] :=
      (hp0.getElem hb3).symm
    have h4 : (attrPattern attr v q1 q2)[d + attr.length] ∈ q1 :: (v ++ [q2]) :=
      attrPattern_getElem_tail_mem attr v q1 q2 (by omega) hcase hb3
    rw [h3] at h2
    rw [h2] at h4
    rcases List.mem_cons.mp h4 with h5 | h5
    · exact isQuoteChar_ne_eq_sign hq1 h5.symm
    · rcases List.mem_append.mp h5 with h6 | h6
      · exact hv h6
      · have h7 := List.mem_singleton.mp h6
        exact isQuoteChar_ne_eq_sign hq2 h7.symm
  · -- the first match's closing quote falls in the attr part of the second
    have hm1 : patternLength attr v - 1 - d < attr.length := by omega
    have hb4 : patternLength attr v - 1 < doc.length := by omega
    have hb5 : patternLength attr v - 1 < (attrPattern attr v q1 q2).length := by
      rw [length_attrPattern]
      omega
    have hA : doc[patternLength attr v - 1] = q2 := by
      rw [← hp0.getElem hb5]
      exact attrPattern_getElem_last attr v q1 q2 hb5
    have hb6 : patternLength attr v - 1 - d < (attrPattern attr v q3 q4).length := by
      rw [length_attrPattern]
      omega
    have hb7 : patternLength attr v - 1 - d < (doc.drop d).length := by
      rw [List.length_drop]
      omega
    have hB0 : (doc.drop d)[patternLength attr v - 1 - d] =
        attr[patternLength attr v - 1 - d] := by
      rw [← hpd.getElem hb6]
      exact attrPattern_getElem_attr attr v q3 q4 hm1 hb6
    have hidx : d + (patternLength attr v - 1 - d) = patternLength attr v - 1 := by omega
    have hB : doc[patternLength attr v - 1] = attr[patternLength attr v - 1 - d] := by
      rw [← hB0, List.getElem_drop]
      simp only [hidx]
    have h7 : isQuoteChar (attr[patternLength attr v - 1 - d]) = false :=
      hattr _ (List.getElem_mem hm1)
    rw [← hB, hA] at h7
    rw [h7] at hq2
    cases hq2

/-- Dropping a block of positions at which no match starts does not
change the number of match positions. -/
theorem countPositions_drop (attr v : List Char) :
    ∀ (k : Nat) (l : List Char),
      (∀ j, j < k → matchesHere attr v (l.drop j) = false) →
      countPositions attr v l = countPositions attr v (l.drop k) := by
  intro k
  induction k with
  | zero => intro l _; rfl
  | succ k ih =>
      intro l hj
      cases l with
      | nil => rfl
      | cons c cs =>
          have h0 : matchesHere attr v (c :: cs) = false := hj 0 (Nat.succ_pos k)
          rw [List.drop_succ_cons]
          have h1 : countPositions attr v (c :: cs) = countPositions attr v cs := by
            simp [countPositions, h0]
          rw [h1]
          refine ih cs (fun j hjk => ?_)
          have h2 := hj (j + 1) (Nat.succ_lt_succ hjk)
          rwa [List.drop_succ_cons] at h2

/-- The `g`-flagged scan counts exactly the positions at which the
regex matches, provided the attribute name contains no quote character
and the value no `=` (so matches cannot overlap). -/
theorem countMatchesFrom_fuel (attr v : List Char)
    (hattr : ∀ c ∈ attr, isQuoteChar c = false) (hv : '=' ∉ v) :
    ∀ (n : Nat) (l : List Char), l.length ≤ n →
      countMatchesFrom attr v l = countPositions attr v l := by
  intro n
  induction n with
  | zero =>
      intro l hl
      have h0 : l = [] := List.eq_nil_of_length_eq_zero (Nat.le_zero.mp hl)
      subst h0
      simp [countMatchesFrom, countPositions]
  | succ n ih =>
      intro l hl
      cases l with
      | nil => simp [countMatchesFrom, countPositions]
      | cons c cs =>
          by_cases hm : matchesHere attr v (c :: cs)
          · have hdl : (cs.drop (attr.length + v.length + 2)).length ≤ n := by
              rw [List.length_drop]
              simp only [List.length_cons] at hl
              omega
            have hdrop : countPositions attr v cs =
                countPositions attr v (cs.drop (attr.length + v.length + 2)) := by
              apply countPositions_drop
              intro j hjk
              have hnov := no_overlapping_match attr v hattr hv (c :: cs) hm (j + 1)
                (Nat.succ_pos j) (by simp only [patternLength]; omega)
              rwa [List.drop_succ_cons] at hnov
            simp only [countMatchesFrom, if_pos hm, ih _ hdl, countPositions, hm,
              if_true, ← hdrop]
          · have hcl : cs.length ≤ n := by
              simp only [List.length_cons] at hl
              omega
            simp only [countMatchesFrom, if_neg hm, ih cs hcl, countPositions, hm,
              if_false]
            simp

/-- The recursive position count equals the filtered-range count. -/
theorem countPositions_eq_filter (attr v : List Char) :
    ∀ l : List Char,
      countPositions attr v l =
        ((List.range l.length).filter (fun i => matchesHere attr v (l.drop i))).length := by
  intro l
  induction l with
  | nil => rfl
  | cons c cs ih =>
      simp only [List.length_cons, List.range_succ_eq_map, List.filter_cons,
        List.drop_zero]
      rw [List.filter_map]
      have hcomp : ((fun i => matchesHere attr v ((c :: cs).drop i)) ∘ Nat.succ) =
          (fun i => matchesHere attr v (cs.drop i)) := by
        funext i
        simp [Function.comp, List.drop_succ_cons]
      rw [hcomp]
      by_cases hm : matchesHere attr v (c :: cs)
      · simp [countPositions, hm, ih]
        omega
      · simp [countPositions, hm, ih]

set_option linter.unusedVariables false in
/-- C1 amended: the code's regex accepts single as well as double
quotes, and the attribute name is interpolated into the regex
unescaped, so the claim holds only for names the regex treats
literally (the `hmeta` hypothesis, under which the literal embedding
coincides with the code). For every attribute name free of quote characters and of
the regex metacharacters of the source's escape class, and every value
free of `=` (matches then cannot overlap),
`countAttributeOccurrences(doc, attr, v)` equals the number of
positions of `doc` at which `attr=` followed by `v` wrapped in double
or single quotes occurs, and `isAttributeUnique(doc, attr, v)` is true
iff that count is exactly 1. In particular, for the document
`id="a" id="b" name="a"`, `isAttributeUnique` with ("id", "a") is true
and with ("name", "a") is true. -/
theorem isAttributeUnique_iff_unique_occurrence (doc attrName value : String)
    (hattr : ∀ c ∈ attrName.data, isQuoteChar c = false)
    (hmeta : ∀ c ∈ attrName.data, isRegexMetaChar c = false)
    (hv : '=' ∉ value.data) :
    countAttributeOccurrences doc attrName value =
      countQuotedOccurrences doc attrName value ∧
    (isAttributeUnique doc attrName value = true ↔
      countQuotedOccurrences doc attrName value = 1) := by
  have h1 : countAttributeOccurrences doc attrName value =
      countQuotedOccurrences doc attrName value := by
    rw [countAttributeOccurrences,
      countMatchesFrom_fuel attrName.data value.data hattr hv doc.data.length doc.data
        (Nat.le_refl _),
      countPositions_eq_filter]
    rfl
  refine ⟨h1, ?_⟩
  rw [isAttributeUnique, h1]
  simp [Nat.beq_eq_true_eq]

/-- Witness for C1 amended, at the document `id="a" id="b" name="a"`
from the claim. -/
theorem isAttributeUnique_iff_unique_occurrence_witness :
    (∀ c ∈ "id".data, isQuoteChar c = false) ∧
    (∀ c ∈ "id".data, isRegexMetaChar c = false) ∧ ('=' ∉ "a".data) ∧
    isAttributeUnique "id=\"a\" id=\"b\" name=\"a\"" "id" "a" = true ∧
    isAttributeUnique "id=\"a\" id=\"b\" name=\"a\"" "name" "a" = true := by
  refine ⟨by decide, by decide, by decide, ?_, ?_⟩
  · exact (isAttributeUnique_iff_unique_occurrence "id=\"a\" id=\"b\" name=\"a\"" "id" "a"
      (by decide) (by decide) (by decide)).2.mpr (by decide)
  · exact (isAttributeUnique_iff_unique_occurrence "id=\"a\" id=\"b\" name=\"a\"" "name" "a"
      (by decide) (by decide) (by decide)).2.mpr (by decide)

/-- The document `id='a'`, with single quotes (written through
character codes). -/
def docSingleQuoted : String := String.mk ['i', 'd', '=', sQuote, 'a', sQuote]

/-- Counterexample to C1 as stated: on the document `id='a'` the code
reports the value as unique although the literal double-quoted pattern
`id="a"` occurs zero times, because the regex also accepts single
quotes. -/
theorem unique_check_accepts_single_quotes :
    isAttributeUnique docSingleQuoted "id" "a" = true ∧
    countLiteralOccurrences docSingleQuoted "id" "a" = 0 := by
  constructor
  · have h1 : countAttributeOccurrences docSingleQuoted "id" "a" =
        countQuotedOccurrences docSingleQuoted "id" "a" := by
      rw [countAttributeOccurrences,
        countMatchesFrom_fuel "id".data "a".data (by decide) (by decide)
          docSingleQuoted.data.length docSingleQuoted.data (Nat.le_refl _),
        countPositions_eq_filter]
      rfl
    rw [isAttributeUnique, h1]
    decide
  · decide

theorem natDigits_ne_nil (n : Nat) : natDigits n ≠ [] := by
  rw [natDigits.eq_def]
  split_ifs <;> simp

theorem digitChar_inj : ∀ a, a < 10 → ∀ b, b < 10 → digitChar a = digitChar b → a = b := by
  decide

theorem natDigits_injective : ∀ m n : Nat, natDigits m = natDigits n → m = n := by
  intro m
  induction m using Nat.strong_induction_on with
  | _ m ih =>
      intro n h
      by_cases hm : m < 10 <;> by_cases hn : n < 10
      · unfold natDigits at h
        rw [dif_pos hm, dif_pos hn] at h
        simp only [List.cons.injEq, and_true] at h
        exact digitChar_inj m hm n hn h
      · exfalso
        unfold natDigits at h
        rw [dif_pos hm, dif_neg hn] at h
        have hlen := congrArg List.length h
        simp only [List.length_append, List.length_cons, List.length_nil] at hlen
        have h0 : natDigits (n / 10) = [] :=
          List.eq_nil_of_length_eq_zero (by omega)
        exact natDigits_ne_nil _ h0
      · exfalso
        unfold natDigits at h
        rw [dif_neg hm, dif_pos hn] at h
        have hlen := congrArg List.length h
        simp only [List.length_append, List.length_cons, List.length_nil] at hlen
        have h0 : natDigits (m / 10) = [] :=
          List.eq_nil_of_length_eq_zero (by omega)
        exact natDigits_ne_nil _ h0
      · unfold natDigits at h
        rw [dif_neg hm, dif_neg hn] at h
        have hlen := congrArg List.length h
        simp only [List.length_append, List.length_cons, List.length_nil] at hlen
        obtain ⟨h1, h2⟩ := List.append_inj h (by omega)
        have hd : digitChar (m % 10) = digitChar (n % 10) := by
          simpa using h2
        have hmod : m % 10 = n % 10 :=
          digitChar_inj _ (Nat.mod_lt _ (by omega)) _ (Nat.mod_lt _ (by omega)) hd
        have hdiv : m / 10 = n / 10 :=
          ih (m / 10) (Nat.div_lt_self (by omega) (by omega)) (n / 10) h1
        omega

theorem joinIndex_inj_right {p : String} {i j : Nat} (h : joinIndex p i = joinIndex p j) :
    i = j := by
  apply natDigits_injective
  have h2 := congrArg String.data h
  simp only [joinIndex, String.data_append, natToString] at h2
  exact List.append_cancel_left h2

theorem translateRecursively_path (d : DOMNode) (pp : String) (idx : Option Nat) :
    (translateRecursively d pp idx).path =
      match idx with
      | none => ""
      | some i => joinIndex pp i := by
  cases d
  cases idx <;> simp [translateRecursively, JSONElement.path]

theorem translateRecursively_children (d : DOMNode) (pp : String) (idx : Option Nat) :
    (translateRecursively d pp idx).children =
      translateChildren (childNodesOf d) ((translateRecursively d pp idx).path) 0 := by
  cases d
  cases idx <;> simp [translateRecursively, JSONElement.children, JSONElement.path]

theorem translateChildren_getElem (l : List DOMNode) :
    ∀ (p : String) (k i : Nat),
      (translateChildren l p k)[i]? =
        (l[i]?).map (fun c => translateRecursively c p (some (k + i))) := by
  induction l with
  | nil =>
      intro p k i
      simp [translateChildren]
  | cons c cs ih =>
      intro p k i
      cases i with
      | zero => simp [translateChildren]
      | succ i =>
          simp only [translateChildren]
          rw [List.getElem?_cons_succ, List.getElem?_cons_succ, ih]
          have hk : k + 1 + i = k + (i + 1) := by omega
          rw [hk]

theorem translate_subtree_fuel :
    ∀ (N : Nat) (d : DOMNode), sizeOf d ≤ N →
      ∀ (pp : String) (idx : Option Nat) (pos : List Nat) (e : JSONElement),
        subtreeAt (translateRecursively d pp idx) pos = some e →
        e.path = extendPath (translateRecursively d pp idx).path pos := by
  intro N
  induction N with
  | zero =>
      intro d hd
      exfalso
      cases d with
      | mk t n a c =>
          simp only [DOMNode.mk.sizeOf_spec] at hd
          omega
  | succ N ih =>
      intro d hd pp idx pos e hsub
      cases pos with
      | nil =>
          simp only [subtreeAt, Option.some.injEq] at hsub
          subst hsub
          rfl
      | cons i is =>
          simp only [subtreeAt] at hsub
          rw [translateRecursively_children, translateChildren_getElem] at hsub
          cases hci : (childNodesOf d)[i]? with
          | none =>
              rw [hci] at hsub
              simp at hsub
          | some cn =>
              rw [hci] at hsub
              simp only [Option.map_some, Nat.zero_add] at hsub
              have hmem : cn ∈ childNodesOf d := List.getElem?_mem hci
              have hsz : sizeOf cn ≤ N := by
                have := mem_childNodesOf_sizeOf_lt hmem
                omega
              have hrec := ih cn hsz ((translateRecursively d pp idx).path) (some i) is e hsub
              rw [translateRecursively_path cn] at hrec
              exact hrec

/-- A tree whose stored path at every reachable position is the
extension of its own path by that position. -/
def pathsCoherent (e : JSONElement) : Prop :=
  ∀ pos e', subtreeAt e pos = some e' → e'.path = extendPath e.path pos

theorem translate_coherent (d : DOMNode) (pp : String) (idx : Option Nat) :
    pathsCoherent (translateRecursively d pp idx) :=
  fun pos e h => translate_subtree_fuel (sizeOf d) d (Nat.le_refl _) pp idx pos e h

theorem coherent_child {e : JSONElement} (hc : pathsCoherent e) {i : Nat}
    {c : JSONElement} (hci : e.children[i]? = some c) :
    c.path = joinIndex e.path i ∧ pathsCoherent c := by
  have h1 : subtreeAt e [i] = some c := by
    simp [subtreeAt, hci]
  have hp : c.path = joinIndex e.path i := by
    have := hc [i] c h1
    simpa [extendPath] using this
  refine ⟨hp, ?_⟩
  intro pos e' hsub
  have h2 : subtreeAt e (i :: pos) = some e' := by
    simp [subtreeAt, hci, hsub]
  have h3 := hc (i :: pos) e' h2
  rw [hp]
  simpa [extendPath] using h3

theorem flatten_paths_fuel :
    ∀ (N : Nat) (e : JSONElement), sizeOf e ≤ N → pathsCoherent e →
      (flattenElementTree e).map JSONElement.path =
        (allPositions e).map (fun pos => extendPath e.path pos) := by
  intro N
  induction N with
  | zero =>
      intro e he
      exfalso
      cases e with
      | mk c t a p =>
          simp only [JSONElement.mk.sizeOf_spec] at he
          omega
  | succ N ih =>
      intro e he hcoh
      have haux : ∀ (cs : List JSONElement) (k : Nat),
          (∀ i c, cs[i]? = some c → e.children[k + i]? = some c) →
          (flattenChildList cs).map JSONElement.path =
            (childPositions cs k).map (fun pos => extendPath e.path pos) := by
        intro cs
        induction cs with
        | nil =>
            intro k _
            simp [flattenChildList, childPositions]
        | cons c rest ihl =>
            intro k hidx
            have hc0 : e.children[k]? = some c := by
              have := hidx 0 c (by simp)
              simpa using this
            obtain ⟨hcp, hccoh⟩ := coherent_child hcoh hc0
            have hcsize : sizeOf c ≤ N := by
              have hmem : c ∈ e.children := List.getElem?_mem hc0
              have := mem_children_sizeOf_lt hmem
              omega
            simp only [flattenChildList, childPositions, List.map_append]
            congr 1
            · rw [List.map_map, ih c hcsize hccoh]
              apply List.map_congr_left
              intro pos _
              rw [hcp]
              rfl
            · refine ihl (k + 1) (fun i c2 hc2 => ?_)
              have := hidx (i + 1) c2 (by simpa using hc2)
              have hk : k + (i + 1) = k + 1 + i := by omega
              rwa [hk] at this
      rw [flattenElementTree, allPositions]
      simp only [List.map_cons]
      congr 1
      exact haux e.children 0 (fun i c h => by simpa using h)

theorem extendPath_append :
    ∀ (xs : List Nat) (p : String) (i : Nat),
      extendPath p (xs ++ [i]) = joinIndex (extendPath p xs) i := by
  intro xs
  induction xs with
  | nil => intro p i; rfl
  | cons x xt ih => intro p i; exact ih (joinIndex p x) i

/-- C5: for every DOM tree, in the tree returned by the normalizer the
root's path is empty; the node reached by following sibling indices
`pos` from the root stores exactly the dot-separated rendering of
`pos` (so a child's path is its parent's path extended by its
zero-based sibling index, indices contiguous from 0 by construction);
no two siblings share a path; and flattening the tree depth-first and
re-deriving paths from positions reproduces exactly the stored paths. -/
theorem translate_path_invariants (d : DOMNode) :
    (translateRecursively d "" none).path = "" ∧
    (∀ pos e, subtreeAt (translateRecursively d "" none) pos = some e →
      e.path = renderPath pos) ∧
    (∀ pos i j ei ej, i ≠ j →
      subtreeAt (translateRecursively d "" none) (pos ++ [i]) = some ei →
      subtreeAt (translateRecursively d "" none) (pos ++ [j]) = some ej →
      ei.path ≠ ej.path) ∧
    (flattenElementTree (translateRecursively d "" none)).map JSONElement.path =
      (allPositions (translateRecursively d "" none)).map renderPath := by
  have hpath : (translateRecursively d "" none).path = "" := by
    rw [translateRecursively_path]
  have hcoh : pathsCoherent (translateRecursively d "" none) :=
    translate_coherent d "" none
  have hsub : ∀ pos e, subtreeAt (translateRecursively d "" none) pos = some e →
      e.path = renderPath pos := by
    intro pos e h
    have h2 := hcoh pos e h
    rwa [hpath] at h2
  refine ⟨hpath, hsub, ?_, ?_⟩
  · intro pos i j ei ej hij hi hj heq
    have h1 := hsub _ _ hi
    have h2 := hsub _ _ hj
    rw [h1, h2, renderPath, renderPath, extendPath_append, extendPath_append] at heq
    exact hij (joinIndex_inj_right heq)
  · have h3 := flatten_paths_fuel (sizeOf (translateRecursively d "" none)) _
      (Nat.le_refl _) hcoh
    rw [hpath] at h3
    exact h3

/-- The sample DOM used by the C5 witness: a root with two element
children (the first with one element child) and one non-element
child. -/
def sampleDomC5 : DOMNode :=
  DOMNode.mk 1 "Root" []
    [DOMNode.mk 1 "A" [] [DOMNode.mk 1 "C" [] []],
     DOMNode.mk 3 "txt" [] [],
     DOMNode.mk 1 "B" [] []]

/-- Witness for C5: the root of the translated sample stores the
re-derived (empty) root path. -/
theorem translate_path_invariants_witness :
    (translateRecursively sampleDomC5 "" none).path = renderPath [] :=
  (translate_path_invariants sampleDomC5).2.1 []
    (translateRecursively sampleDomC5 "" none) rfl

end WebdriverMCP
